import Mathlib

/-!
Verification development for the `dotclaude` repository's two scripts:
`scripts/safeify_compose.py` (compose-file safety transformer) and
`scripts/spinoff_agent.py` (workspace lifecycle manager).

The Python data structures are shallowly embedded:
* YAML compose documents become `ComposeDoc` (association lists keep the
  insertion order of Python dicts);
* Python `dict` assignment `d[k] = v` becomes `dinsert` (update in place if
  the key exists, append otherwise), `{**a, **b}` becomes `dmergeInto`;
* machine-level pieces (`hashlib.sha256`, `str.split`, `str(int)`) are
  re-implemented over `Nat` / `List Char` so that everything is executable
  and provable;
* the process-level control flow of `spinoff_agent.main` (try/except,
  signal handlers, `sys.exit`) becomes a total function from an
  environment describing the outcome of every external step to a record of
  the final process state.
-/

set_option maxRecDepth 8000

namespace Dotclaude

/-! ### Python dict primitives (insertion-ordered association lists) -/

/-- Python `d[k] = v` on an insertion-ordered dict: if the key is present,
its value is replaced in place (position kept); otherwise the pair is
appended at the end. -/
def dinsert {α : Type} (m : List (String × α)) (k : String) (v : α) :
    List (String × α) :=
  if m.any (fun p => p.1 == k) then
    m.map (fun p => if p.1 == k then (k, v) else p)
  else
    m ++ [(k, v)]

/-- Python `d.get(k)` / `d[k]`: first (and, for dicts, only) binding. -/
def dlookup {α : Type} (m : List (String × α)) (k : String) : Option α :=
  match m with
  | [] => none
  | p :: rest => if p.1 == k then some p.2 else dlookup rest k

/-- Python `{**a, **b}` and `a.update(b)`: fold the right dict into the
left one with `dinsert`, so keys of `b` override values in `a` but keep
`a`'s position. -/
def dmergeInto {α : Type} (a b : List (String × α)) : List (String × α) :=
  b.foldl (fun m p => dinsert m p.1 p.2) a

/-- Keys of a dict, in order. -/
def dkeys {α : Type} (m : List (String × α)) : List String :=
  m.map Prod.fst

/-! ### Python string primitives -/

/-- Python `s.split(":")` on the character list of `s`.  `[] ↦ [[]]`
(Python: `"".split(":") == [""]`), separators produce empty chunks. -/
def splitColon : List Char → List (List Char)
  | [] => [[]]
  | c :: rest =>
    if c = ':' then [] :: splitColon rest
    else
      match splitColon rest with
      | [] => [[c]]
      | h :: t => (c :: h) :: t

/-- Python `":".join(chunks)`. -/
def joinColon : List (List Char) → List Char
  | [] => []
  | [x] => x
  | x :: rest => x ++ ':' :: joinColon rest

/-- Python `s.split(":")[-1]`: the substring after the last `:`, or the
whole string if there is none. -/
def lastColonChunk (s : String) : String :=
  String.mk ((splitColon s.data).getLastD [])

/-- Python `":".join(s.split(":")[1:])`: everything after the first `:`. -/
def afterFirstColon (s : String) : String :=
  String.mk (joinColon ((splitColon s.data).drop 1))

/-- One decimal digit as a character. -/
def digitChar (d : Nat) : Char :=
  if d = 0 then '0' else if d = 1 then '1' else if d = 2 then '2'
  else if d = 3 then '3' else if d = 4 then '4' else if d = 5 then '5'
  else if d = 6 then '6' else if d = 7 then '7' else if d = 8 then '8'
  else '9'

/-- Fuel-driven decimal digits of `n`, most significant first. -/
def natChars : Nat → Nat → List Char
  | 0, _ => []
  | fuel + 1, n =>
    if n < 10 then [digitChar n]
    else natChars fuel (n / 10) ++ [digitChar (n % 10)]

/-- Python `str(n)` for a non-negative integer. -/
def pyStr (n : Nat) : String :=
  String.mk (natChars (n + 1) n)

/-- Python `str.upper()` on one character, for the ASCII range (compose
service names; non-letters are unchanged). -/
def upChar (c : Char) : Char :=
  if c = 'a' then 'A' else if c = 'b' then 'B' else if c = 'c' then 'C'
  else if c = 'd' then 'D' else if c = 'e' then 'E' else if c = 'f' then 'F'
  else if c = 'g' then 'G' else if c = 'h' then 'H' else if c = 'i' then 'I'
  else if c = 'j' then 'J' else if c = 'k' then 'K' else if c = 'l' then 'L'
  else if c = 'm' then 'M' else if c = 'n' then 'N' else if c = 'o' then 'O'
  else if c = 'p' then 'P' else if c = 'q' then 'Q' else if c = 'r' then 'R'
  else if c = 's' then 'S' else if c = 't' then 'T' else if c = 'u' then 'U'
  else if c = 'v' then 'V' else if c = 'w' then 'W' else if c = 'x' then 'X'
  else if c = 'y' then 'Y' else if c = 'z' then 'Z' else c

/-- Python `s.upper()` (ASCII). -/
def pyUpper (s : String) : String :=
  String.mk (s.data.map upChar)

/-- Python `s.encode()` (UTF-8 bytes of a string). -/
def utf8Enc (c : Char) : List Nat :=
  let n := c.toNat
  if n < 0x80 then [n]
  else if n < 0x800 then [0xC0 + n / 64, 0x80 + n % 64]
  else if n < 0x10000 then
    [0xE0 + n / 4096, 0x80 + (n / 64) % 64, 0x80 + n % 64]
  else
    [0xF0 + n / 262144, 0x80 + (n / 4096) % 64, 0x80 + (n / 64) % 64,
     0x80 + n % 64]

def pyEncode (s : String) : List Nat :=
  (s.data.map utf8Enc).flatten

/-! ### SHA-256 (`hashlib.sha256(...).hexdigest()`), over `Nat` mod 2^32 -/

def wordMod : Nat := 4294967296

def rotr32 (n x : Nat) : Nat :=
  ((x >>> n) ||| (x <<< (32 - n))) % wordMod

def bigSigma0 (x : Nat) : Nat :=
  Nat.xor (rotr32 2 x) (Nat.xor (rotr32 13 x) (rotr32 22 x))

def bigSigma1 (x : Nat) : Nat :=
  Nat.xor (rotr32 6 x) (Nat.xor (rotr32 11 x) (rotr32 25 x))

def smallSigma0 (x : Nat) : Nat :=
  Nat.xor (rotr32 7 x) (Nat.xor (rotr32 18 x) (x >>> 3))

def smallSigma1 (x : Nat) : Nat :=
  Nat.xor (rotr32 17 x) (Nat.xor (rotr32 19 x) (x >>> 10))

def chFn (e f g : Nat) : Nat :=
  Nat.xor (Nat.land e f) (Nat.land (wordMod - 1 - e) g)

def majFn (a b c : Nat) : Nat :=
  Nat.xor (Nat.land a b) (Nat.xor (Nat.land a c) (Nat.land b c))

def K256 : List Nat :=
  [1116352408, 1899447441, 3049323471, 3921009573, 961987163,
   1508970993, 2453635748, 2870763221, 3624381080, 310598401,
   607225278, 1426881987, 1925078388, 2162078206, 2614888103,
   3248222580, 3835390401, 4022224774, 264347078, 604807628,
   770255983, 1249150122, 1555081692, 1996064986, 2554220882,
   2821834349, 2952996808, 3210313671, 3336571891, 3584528711,
   113926993, 338241895, 666307205, 773529912, 1294757372,
   1396182291, 1695183700, 1986661051, 2177026350, 2456956037,
   2730485921, 2820302411, 3259730800, 3345764771, 3516065817,
   3600352804, 4094571909, 275423344, 430227734, 506948616,
   659060556, 883997877, 958139571, 1322822218, 1537002063,
   1747873779, 1955562222, 2024104815, 2227730452, 2361852424,
   2428436474, 2756734187, 3204031479, 3329325298]

def H0 : List Nat :=
  [1779033703, 3144134277, 1013904242, 2773480762,
   1359893119, 2600822924, 528734635, 1541459225]

/-- Padding: `0x80`, zeros, then the 64-bit big-endian bit length, so that
the total byte length is a multiple of 64. -/
def padMsg (m : List Nat) : List Nat :=
  let len := m.length
  let k := (119 - (len % 64)) % 64
  let bitLen := len * 8
  m ++ 0x80 :: (List.replicate k 0 ++
    [(bitLen >>> 56) % 256, (bitLen >>> 48) % 256, (bitLen >>> 40) % 256,
     (bitLen >>> 32) % 256, (bitLen >>> 24) % 256, (bitLen >>> 16) % 256,
     (bitLen >>> 8) % 256, bitLen % 256])

/-- Big-endian 32-bit words from a byte list (length a multiple of 4). -/
def toWords : List Nat → List Nat
  | b0 :: b1 :: b2 :: b3 :: rest =>
    (b0 * 16777216 + b1 * 65536 + b2 * 256 + b3) :: toWords rest
  | _ => []

/-- Split a word list into 16-word blocks (fuel-driven). -/
def toBlocks : Nat → List Nat → List (List Nat)
  | 0, _ => []
  | _, [] => []
  | fuel + 1, w => w.take 16 :: toBlocks fuel (w.drop 16)

/-- Extend the 16-word message schedule by one word per list element. -/
def extendSched : List Unit → List Nat → List Nat
  | [], w => w
  | _ :: fs, w =>
    let n := w.length
    let nw := (smallSigma1 (w.getD (n - 2) 0) + w.getD (n - 7) 0 +
      smallSigma0 (w.getD (n - 15) 0) + w.getD (n - 16) 0) % wordMod
    extendSched fs (w ++ [nw])

def Sha256State : Type :=
  Nat × Nat × Nat × Nat × Nat × Nat × Nat × Nat

def roundStep (st : Sha256State) (kw : Nat × Nat) : Sha256State :=
  let (a, b, c, d, e, f, g, h) := st
  let t1 := (h + bigSigma1 e + chFn e f g + kw.2 + kw.1) % wordMod
  let t2 := (bigSigma0 a + majFn a b c) % wordMod
  ((t1 + t2) % wordMod, a, b, c, (d + t1) % wordMod, e, f, g)

def compressBlock (h : List Nat) (block : List Nat) : List Nat :=
  let w := extendSched (List.replicate 48 ()) block
  let init : Sha256State :=
    (h.getD 0 0, h.getD 1 0, h.getD 2 0, h.getD 3 0, h.getD 4 0,
     h.getD 5 0, h.getD 6 0, h.getD 7 0)
  let fin := (w.zip K256).foldl roundStep init
  match fin with
  | (a, b, c, d, e, f, g, hh) =>
    [(h.getD 0 0 + a) % wordMod, (h.getD 1 0 + b) % wordMod,
     (h.getD 2 0 + c) % wordMod, (h.getD 3 0 + d) % wordMod,
     (h.getD 4 0 + e) % wordMod, (h.getD 5 0 + f) % wordMod,
     (h.getD 6 0 + g) % wordMod, (h.getD 7 0 + hh) % wordMod]

def sha256Words (s : String) : List Nat :=
  let ws := toWords (padMsg (pyEncode s))
  (toBlocks ws.length ws).foldl compressBlock H0

def nibbleChar (n : Nat) : Char :=
  "0123456789abcdef".data.getD n '0'

def wordHexChars (x : Nat) : List Char :=
  [nibbleChar ((x >>> 28) % 16), nibbleChar ((x >>> 24) % 16),
   nibbleChar ((x >>> 20) % 16), nibbleChar ((x >>> 16) % 16),
   nibbleChar ((x >>> 12) % 16), nibbleChar ((x >>> 8) % 16),
   nibbleChar ((x >>> 4) % 16), nibbleChar (x % 16)]

/-- Python `hashlib.sha256(s.encode()).hexdigest()`, as a character list. -/
def sha256HexChars (s : String) : List Char :=
  ((sha256Words s).map wordHexChars).flatten

/-- Python `hashlib.sha256(s.encode()).hexdigest()`. -/
def pyHexDigest (s : String) : String :=
  String.mk (sha256HexChars s)

/-! ### Compose document data model

`safeify_compose.py` works on `yaml.safe_load` output and only inspects:
`data["services"]` (a dict of service name → service config), each
service's `ports` (a list of YAML scalars: strings or non-negative
integers), `volumes` (a list whose entries are either strings or other
YAML nodes, e.g. long-form mappings, which the script passes through
untouched), `container_name`, and the top-level `volumes` (dict whose
values are `None` or some configuration node) and `networks` keys. -/

/-- One entry of a service's `ports` list: a YAML string or integer. -/
inductive PortEntry : Type
  | pstr (s : String)
  | pnum (n : Nat)
  deriving DecidableEq

/-- One entry of a service's `volumes` list: a string, or any other YAML
node (`vother` carries an identity tag so pass-through is observable). -/
inductive VolEntry : Type
  | vstr (s : String)
  | vother (id : Nat)
  deriving DecidableEq

/-- The keys of a service config that the script reads or writes. -/
structure Service : Type where
  ports : Option (List PortEntry) := none
  volumes : Option (List VolEntry) := none
  container_name : Option String := none
  deriving DecidableEq

/-- A parsed compose document.  A top-level volume's value is `none` for
YAML `null` and `some id` for any other configuration node. -/
structure ComposeDoc : Type where
  services : List (String × Service) := []
  volumes : Option (List (String × Option Nat)) := none
  networks : Option Nat := none
  deriving DecidableEq

/-- The Python exceptions this code can raise.  `configError` never occurs
in the source; it is modelled from the spec: the spec's §7 error taxonomy
names a `ConfigError` for invalid transform option values, but
`safeify_compose.py` defines no such class and raises `ValueError` there. -/
inductive PyErr : Type
  | valueError (msg : String)
  | attributeError (attr : String)
  | configError (msg : String)
  deriving DecidableEq

deriving instance DecidableEq for Except

/-! ### `transform_volumes` (safeify_compose.py lines 23-88) -/

/-- `isinstance(vol, str) and ":" in vol and vol[0] in "./"`
(short-circuit: the emptiness of the string is never an issue because an
empty string contains no `:`). -/
def isBindMount (v : VolEntry) : Bool :=
  match v with
  | .vstr s => s.data.any (fun c => c == ':') &&
      (match s.data with
       | [] => false
       | c :: _ => c == '.' || c == '/')
  | .vother _ => false

/-- `hashlib.sha256(f"{service_name}:{vol}".encode()).hexdigest()[:8]`. -/
def volHash (serviceName vol : String) : String :=
  String.mk ((sha256HexChars (serviceName ++ ":" ++ vol)).take 8)

/-- The loop body of the `convert-to-named` branch for one service:
walks the service's `volumes` list threading `bind_mount_count`, the
cross-service `volume_env_vars` dict and the cross-service
`named_volumes` dict.  `total` is `total_bind_mounts`, computed in the
source from the service's (unmodified) `volumes` list. -/
def convLoop (serviceName : String) (total : Nat) :
    List VolEntry → Nat → List (String × String) →
    List (String × Option Nat) →
    List VolEntry × List (String × String) × List (String × Option Nat)
  | [], _, env, named => ([], env, named)
  | v :: rest, bindCount, env, named =>
    if isBindMount v then
      match v with
      | .vstr s =>
        let vol_hash := volHash serviceName s
        let default_vol_name := serviceName ++ "-" ++ vol_hash
        let env_var_name :=
          if total == 1 then pyUpper serviceName ++ "_VOLUME"
          else pyUpper serviceName ++ "_VOLUME_" ++ pyStr bindCount
        let bindCount' := if total == 1 then bindCount else bindCount + 1
        let env' := dinsert env env_var_name default_vol_name
        let named' := dinsert named default_vol_name none
        let entry := VolEntry.vstr ("$\x7b" ++ env_var_name ++ ":-" ++
          default_vol_name ++ "\x7d" ++ ":" ++ afterFirstColon s)
        let r := convLoop serviceName total rest bindCount' env' named'
        (entry :: r.1, r.2.1, r.2.2)
      | .vother i =>
        -- unreachable: `isBindMount (.vother i) = false`
        let r := convLoop serviceName total rest bindCount env named
        (VolEntry.vother i :: r.1, r.2.1, r.2.2)
    else
      let r := convLoop serviceName total rest bindCount env named
      (v :: r.1, r.2.1, r.2.2)

/-- `total_bind_mounts` for one service. -/
def countBindMounts (vols : List VolEntry) : Nat :=
  (vols.filter (fun v => isBindMount v)).length

/-- The `for service_name, service_config in services.items()` loop of the
`convert-to-named` branch. -/
def convServices :
    List (String × Service) → List (String × String) →
    List (String × Option Nat) →
    List (String × Service) × List (String × String) ×
      List (String × Option Nat)
  | [], env, named => ([], env, named)
  | (nm, svc) :: rest, env, named =>
    match svc.volumes with
    | none =>
      let r := convServices rest env named
      ((nm, svc) :: r.1, r.2.1, r.2.2)
    | some vols =>
      let c := convLoop nm (countBindMounts vols) vols 0 env named
      let r := convServices rest c.2.1 c.2.2
      ((nm, { svc with volumes := some c.1 }) :: r.1, r.2.1, r.2.2)

/-- `transform_volumes(data, volumes_option)`: returns the transformed
document and `volume_env_vars`, or the raised exception. -/
def transform_volumes (data : ComposeDoc) (volumes_option : String) :
    Except PyErr (ComposeDoc × List (String × String)) :=
  if volumes_option == "remove" then
    -- delete `volumes` from every service, pop the top-level key
    .ok ({ data with
            services := data.services.map
              (fun p => (p.1, { p.2 with volumes := none })),
            volumes := none }, [])
  else if volumes_option == "convert-to-named" then
    let r := convServices data.services [] []
    let data' := { data with services := r.1 }
    -- `if named_volumes: data.setdefault("volumes", {}).update(named_volumes)`
    let data'' :=
      if r.2.2.isEmpty then data'
      else { data' with
              volumes := some (dmergeInto (data.volumes.getD []) r.2.2) }
    .ok (data'', r.2.1)
  else if volumes_option == "keep" then
    .ok (data, [])
  else
    .error (.valueError ("Invalid volumes option: " ++ volumes_option))

/-! ### `make_multi_instance_safe` (safeify_compose.py lines 91-140) -/

/-- `str(port).split(":")[-1] if isinstance(port, str) else str(port)`. -/
def containerPort : PortEntry → String
  | .pstr s => lastColonChunk s
  | .pnum n => pyStr n

/-- The `for i, port in enumerate(ports)` loop: builds `new_ports` and
threads `env_vars`.  `total` is `len(ports)` (of the original list). -/
def portsLoop (upperName : String) (total : Nat) :
    List PortEntry → Nat → List (String × String) →
    List PortEntry × List (String × String)
  | [], _, env => ([], env)
  | p :: rest, i, env =>
    let container_port := containerPort p
    let env_var_name :=
      if total == 1 then upperName ++ "_PORT"
      else upperName ++ "_PORT_" ++ pyStr i
    let env' := dinsert env env_var_name container_port
    let entry := PortEntry.pstr ("$\x7b" ++ env_var_name ++ ":-" ++
      container_port ++ "\x7d" ++ ":" ++ container_port)
    let r := portsLoop upperName total rest (i + 1) env'
    (entry :: r.1, r.2)

/-- The `for service_name, service_config in services.items()` loop:
rewrites `ports` when present and deletes `container_name`. -/
def msafeServices :
    List (String × Service) → List (String × String) →
    List (String × Service) × List (String × String)
  | [], env => ([], env)
  | (nm, svc) :: rest, env =>
    let se :=
      match svc.ports with
      | none => (svc, env)
      | some ps =>
        let r := portsLoop (pyUpper nm) ps.length ps 0 env
        ({ svc with ports := some r.1 }, r.2)
    let svc'' := { se.1 with container_name := none }
    let t := msafeServices rest se.2
    ((nm, svc'') :: t.1, t.2)

/-- `make_multi_instance_safe(data)`: rewrites all ports to
`"${ENV:-container}:container"` form, deletes `container_name` from every
service, pops the top-level `networks` key; returns the document and
`env_vars`. -/
def make_multi_instance_safe (data : ComposeDoc) :
    ComposeDoc × List (String × String) :=
  let r := msafeServices data.services []
  ({ data with services := r.1, networks := none }, r.2)

/-! ### `safeify_compose` data path (safeify_compose.py lines 143-160)

The file I/O (YAML read/serialize, `.env` / `.safecompose.env` writes) is
stripped; this is the transformation between parse and dump:
`transform_volumes`, then `make_multi_instance_safe`, then the merge
`{**volume_env_vars, **port_env_vars}`. -/
def safeify_compose (data : ComposeDoc) (volumes_option : String) :
    Except PyErr (ComposeDoc × List (String × String)) :=
  match transform_volumes data volumes_option with
  | .error e => .error e
  | .ok r =>
    let m := make_multi_instance_safe r.1
    .ok (m.1, dmergeInto r.2 m.2)

/-! ### The CLI (`cli`, safeify_compose.py lines 192-240) -/

/-- Outcome of running the CLI process: `sys.exit(code)`, or an uncaught
exception (which makes the Python interpreter exit with status 1). -/
inductive CliOutcome : Type
  | exited (code : Nat)
  | uncaught (e : PyErr)
  deriving DecidableEq

/-- The `argparse.Namespace` produced by `parser.parse_args()`: exactly
the three declared destinations (`dest="compose_file"`, `"volumes"`,
`"output"`).  Accessing any other attribute raises `AttributeError`. -/
def cliNamespace (compose_file volumes output : String) :
    List (String × String) :=
  [("compose_file", compose_file), ("volumes", volumes),
   ("output", output)]

/-- Python attribute access `args.<attr>` on the namespace. -/
def nsGetattr (ns : List (String × String)) (attr : String) :
    Except PyErr String :=
  match dlookup ns attr with
  | some v => .ok v
  | none => .error (.attributeError attr)

/-- `cli()` as a function of the environment: `globMatches` is
`glob.glob(args.compose_file)`, `fileExists` is `Path.exists`, `parsed`
is the YAML document of the matched file.  Mirrors the source: exit 1 on
zero matches, multiple matches, or a missing file; otherwise call
`safeify_compose(input_path, args.output_path, args.volumes)` — whose
argument evaluation reads the attribute `output_path`, which the parser
never sets (its destination is `output`), and whose second positional
argument is `volumes_option`. -/
def cli (globMatches : List String) (fileExists : String → Bool)
    (parsed : ComposeDoc) (compose_file_arg volumes_arg output_arg : String) :
    CliOutcome :=
  if globMatches.isEmpty then .exited 1
  else if decide (globMatches.length > 1) then .exited 1
  else
    let input_path := globMatches.headD ""
    if !fileExists input_path then .exited 1
    else
      match nsGetattr (cliNamespace compose_file_arg volumes_arg output_arg)
          "output_path" with
      | .error e => .uncaught e
      | .ok out =>
        -- would run `safeify_compose(input_path, out, args.volumes)`,
        -- i.e. with `volumes_option := out`
        match safeify_compose parsed out with
        | .error e => .uncaught e
        | .ok _ => .exited 0

/-- The process exit status an outcome produces (`1` for a traceback). -/
def cliExitCode : CliOutcome → Nat
  | .exited n => n
  | .uncaught _ => 1

/-! ### Workspace lifecycle manager (`spinoff_agent.py`)

`main` (lines 247-322) is modelled as a function of an environment that
fixes the outcome of every external effect (each subprocess's return
code, each filesystem operation's success) plus an optional OS signal
delivered at one of the checkpoints between the steps of the `try` body.
`sys.exit(n)` raises `SystemExit`, which no `except` clause in `main`
catches (`except Exception` does not catch `SystemExit`), so a call of
`cleanup_handler` always ends the process: the statements
`sys.exit(e.returncode)` (line 315) and `sys.exit(1)` (line 319) placed
after `cleanup_handler()` can never execute.  `KeyboardInterrupt` can
never be raised either, because line 272 replaces the default SIGINT
handler with `cleanup_handler` before the `try` block. -/

/-- Mutable state the lifecycle touches, as observed from outside. -/
structure SpinSt : Type where
  /-- the workspace directory exists on disk -/
  wsExists : Bool := false
  /-- `docker-compose.safe.yml` has been written into the workspace -/
  safeCompose : Bool := false
  /-- `docker_started` flag of `main` -/
  dockerStarted : Bool := false
  /-- a `docker compose ... down -v` invocation was attempted -/
  downAttempted : Bool := false
  deriving DecidableEq

/-- Final observable result of the process. -/
structure SpinFinal : Type where
  /-- the process exit status -/
  exitCode : Nat
  st : SpinSt
  /-- `cleanup_handler` was entered -/
  handlerInvoked : Bool
  /-- `cleanup_handler` ran to its `sys.exit` (teardown succeeded) -/
  handlerCompleted : Bool
  /-- the signal number `cleanup_handler` was invoked with, if any -/
  signalDelivered : Option Nat
  deriving DecidableEq

/-- Checkpoints of the `try` body at which a pending signal is
delivered. -/
inductive Stage : Type
  | atRepoRoot | atMkdir | atCopy | atCheckout | atDockerSetup
  | atAgent | atSummary | atFinalCleanup
  deriving DecidableEq

/-- Outcomes of the external steps.  `none` means the subprocess exited
with 0; `some rc` means it failed with return code `rc` and, the command
having been run with `check=True`, `subprocess.CalledProcessError` was
raised. -/
structure SpinEnv : Type where
  /-- `git rev-parse --abbrev-ref HEAD` (line 253, before the handler is
  registered) succeeds -/
  baseBranchOk : Bool := true
  /-- `args.input_dir` was given (skips `get_repo_root`) -/
  inputDirGiven : Bool := false
  /-- `git rev-parse --show-toplevel` in `get_repo_root` -/
  repoRoot : Option Nat := none
  /-- `args.workspaces_dir.mkdir(parents=True, exist_ok=True)` succeeds -/
  mkdirOk : Bool := true
  /-- `shutil.copytree` succeeds (on success the workspace exists) -/
  copyOk : Bool := true
  /-- a failed `copytree` left a partially created directory behind -/
  copyPartial : Bool := false
  /-- the `git checkout` / `git checkout -b` in `checkout_branch` -/
  checkout : Option Nat := none
  /-- `args.docker_services` is truthy (default `["all"]` is) -/
  dockerServicesNonempty : Bool := true
  /-- `setup_docker` finds a compose file in the workspace -/
  composeFound : Bool := true
  /-- `safeify_compose` inside `setup_docker` raises no exception -/
  safeifyOk : Bool := true
  /-- `docker compose ... up --build --force-recreate -d` -/
  dockerUp : Option Nat := none
  /-- `docker compose ... ps` -/
  dockerPs : Option Nat := none
  /-- the agent command run by `run_agent` -/
  agent : Option Nat := none
  /-- `shutil.rmtree(workspace_path)` in `cleanup_workspace` succeeds -/
  rmtreeOk : Bool := true
  /-- return code of `docker compose ... down -v` (run with
  `check=False`) -/
  downRc : Nat := 0
  /-- an OS signal (SIGINT/SIGTERM) with this number arrives at this
  checkpoint, if any -/
  signal : Option (Stage × Nat) := none
  deriving DecidableEq

/-- `cleanup_docker(workspace_path, workspace_id)` (lines 165-184): runs
`docker compose -f docker-compose.safe.yml -p <id> down -v` with
`check=False` — its return code (`env.downRc`) is discarded — but only if
`docker-compose.safe.yml` exists. -/
def cleanup_docker (env : SpinEnv) (st : SpinSt) : SpinSt :=
  let _rc_discarded := env.downRc
  if st.safeCompose then { st with downAttempted := true } else st

/-- `cleanup_handler(signum=None)` (lines 262-269): tear down Docker if
`docker_started`, remove the workspace directory, then
`sys.exit(0 if signum is None else 128 + signum)`.  If `shutil.rmtree`
raises, the exception propagates out of the handler and the interpreter
dies with a traceback (exit status 1). -/
def cleanup_handler (env : SpinEnv) (signum : Option Nat) (st : SpinSt) :
    SpinFinal :=
  let st := if st.dockerStarted then cleanup_docker env st else st
  if st.wsExists then
    if env.rmtreeOk then
      { exitCode := match signum with | none => 0 | some n => 128 + n,
        st := { st with wsExists := false },
        handlerInvoked := true, handlerCompleted := true,
        signalDelivered := signum }
    else
      { exitCode := 1, st := st, handlerInvoked := true,
        handlerCompleted := false, signalDelivered := signum }
  else
    { exitCode := match signum with | none => 0 | some n => 128 + n,
      st := st, handlerInvoked := true, handlerCompleted := true,
      signalDelivered := signum }

/-- Deliver a pending signal at checkpoint `s`, otherwise continue. -/
def atStage (env : SpinEnv) (s : Stage) (st : SpinSt)
    (k : SpinSt → SpinFinal) : SpinFinal :=
  match env.signal with
  | some (s', n) => if s = s' then cleanup_handler env (some n) st else k st
  | none => k st

/-- The `try` body of `main` (lines 275-307) followed by the normal-path
`cleanup_handler()` (line 322); every `except` clause (309-319) also just
calls `cleanup_handler()`, whose `sys.exit` ends the process before the
`sys.exit(e.returncode)` / `sys.exit(1)` that follow. -/
def runTry (env : SpinEnv) : SpinFinal :=
  let st0 : SpinSt := {}
  atStage env .atRepoRoot st0 fun st =>
    -- repo_root = args.input_dir or get_repo_root(".")
    if !env.inputDirGiven && env.repoRoot.isSome then
      cleanup_handler env none st
    else atStage env .atMkdir st fun st =>
      if !env.mkdirOk then cleanup_handler env none st
      else atStage env .atCopy st fun st =>
        if env.copyOk then
          let st := { st with wsExists := true }
          atStage env .atCheckout st fun st =>
            if env.checkout.isSome then cleanup_handler env none st
            else atStage env .atDockerSetup st fun st =>
              let afterDocker : SpinSt → SpinFinal := fun st =>
                atStage env .atAgent st fun st =>
                  if env.agent.isSome then cleanup_handler env none st
                  else atStage env .atSummary st fun st =>
                    -- show_summary only logs
                    atStage env .atFinalCleanup st fun st =>
                      cleanup_handler env none st
              if env.dockerServicesNonempty then
                if !env.composeFound then
                  -- warning only; docker_started stays False
                  afterDocker st
                else if !env.safeifyOk then cleanup_handler env none st
                else
                  let st := { st with safeCompose := true }
                  if env.dockerUp.isSome then cleanup_handler env none st
                  else if env.dockerPs.isSome then cleanup_handler env none st
                  else afterDocker { st with dockerStarted := true }
              else afterDocker st
        else
          cleanup_handler env none { st with wsExists := env.copyPartial }

/-- `main()` (lines 247-322).  The `git rev-parse --abbrev-ref HEAD` at
line 253 runs with `check=True` before the signal handlers are
registered and before the `try`; its `CalledProcessError` propagates
uncaught (interpreter exit status 1, no cleanup). -/
def spinoff_main (env : SpinEnv) : SpinFinal :=
  if !env.baseBranchOk then
    { exitCode := 1, st := {}, handlerInvoked := false,
      handlerCompleted := false, signalDelivered := none }
  else
    runTry env

/-! ### Spec-side vocabulary

These definitions follow the wording of the specification (§4.1, §8) and
are compared with the source-translated functions above. -/

/-- Spec §4.1: env-var name for the `i`-th (0-based) port entry of a
service with `total` entries: `"{SERVICE_NAME_UPPER}_PORT"` when the
service has exactly one entry, `"{SERVICE_NAME_UPPER}_PORT_{i}"`
otherwise. -/
def specPortEnvName (serviceName : String) (total i : Nat) : String :=
  if total == 1 then pyUpper serviceName ++ "_PORT"
  else pyUpper serviceName ++ "_PORT_" ++ pyStr i

/-- Spec §4.1: each port entry is rewritten to
`"${ENV_VAR_NAME:-container_port}:container_port"`. -/
def specPortRewrite (envVarName container_port : String) : String :=
  "$\x7b" ++ envVarName ++ ":-" ++ container_port ++ "\x7d" ++ ":" ++
    container_port

/-- The rewritten `ports` list of one service, per the spec's wording. -/
def specRewrittenPorts (serviceName : String) (ps : List PortEntry) :
    List PortEntry :=
  ps.enum.map fun ip =>
    PortEntry.pstr
      (specPortRewrite (specPortEnvName serviceName ps.length ip.1)
        (containerPort ip.2))

/-- The `(env_var_name, container_port)` pairs of one service, in original
entry order. -/
def specServicePortPairs (serviceName : String) (ps : List PortEntry) :
    List (String × String) :=
  ps.enum.map fun ip =>
    (specPortEnvName serviceName ps.length ip.1, containerPort ip.2)

/-- All generated port env-var pairs of a service list, services in
order, entries in original order. -/
def specPortPairsList (svcs : List (String × Service)) :
    List (String × String) :=
  (svcs.map fun p =>
    match p.2.ports with
    | none => []
    | some ps => specServicePortPairs p.1 ps).flatten

/-- All generated port env-var pairs of a document, services in document
order, entries in original order. -/
def specPortPairs (d : ComposeDoc) : List (String × String) :=
  specPortPairsList d.services

/-- Generalisation of `specServicePortPairs` to an arbitrary starting
index, mirroring the accumulator of `portsLoop` (`u` is the uppercased
service name, `total` the original number of entries). -/
def specPairsFrom (u : String) (total : Nat) (ps : List PortEntry)
    (i : Nat) : List (String × String) :=
  (ps.enumFrom i).map fun ip =>
    ((if total == 1 then u ++ "_PORT" else u ++ "_PORT_" ++ pyStr ip.1),
     containerPort ip.2)

/-- Generalisation of `specRewrittenPorts` to an arbitrary starting
index. -/
def specEntriesFrom (u : String) (total : Nat) (ps : List PortEntry)
    (i : Nat) : List PortEntry :=
  (ps.enumFrom i).map fun ip =>
    PortEntry.pstr
      (specPortRewrite
        (if total == 1 then u ++ "_PORT" else u ++ "_PORT_" ++ pyStr ip.1)
        (containerPort ip.2))

/-- What `make_multi_instance_safe` does to one service, per the spec:
ports rewritten, `container_name` dropped. -/
def msafeRewriteService (p : String × Service) : String × Service :=
  (p.1,
   { ports := p.2.ports.map (specRewrittenPorts p.1),
     volumes := p.2.volumes,
     container_name := none })

/-- The top-level volume names after running `transform_volumes` in mode
`convert-to-named` (empty on the impossible error case). -/
def topNamesAfterConv (d : ComposeDoc) : List String :=
  match transform_volumes d "convert-to-named" with
  | .ok (d', _) => dkeys (d'.volumes.getD [])
  | .error _ => []

/-- The invariant of every teardown entry point of `runTry`: the result
is some `cleanup_handler` call whose entry state has no `down` attempt
recorded yet, and whose `docker_started` flag can only be set if the
`docker compose up` step succeeded. -/
def ShapeP (env : SpinEnv) (f : SpinFinal) : Prop :=
  ∃ sg st, f = cleanup_handler env sg st ∧ st.downAttempted = false ∧
    (st.dockerStarted = true → env.dockerUp = none)

/-! ### Concrete documents and environments used by witnesses -/

/-- Spec §8: service `web` with `ports: ["8080:80"]`. -/
def webDoc : ComposeDoc :=
  { services := [("web", { ports := some [.pstr "8080:80"] })] }

/-- Spec §8: service `api` with `ports: ["8080:80", "8443:443"]`. -/
def apiDoc : ComposeDoc :=
  { services :=
      [("api", { ports := some [.pstr "8080:80", .pstr "8443:443"] })] }

/-- Spec §8: service `db` with bind mount `./data:/var/lib/data`. -/
def dbDoc : ComposeDoc :=
  { services := [("db", { volumes := some [.vstr "./data:/var/lib/data"] })] }

/-- A document with service-level and top-level volumes, for the
remove-mode witness. -/
def volDoc : ComposeDoc :=
  { services :=
      [("db", { volumes := some [.vstr "./data:/var/lib/data",
                                 .vstr "named:/x", .vother 3] }),
       ("web", { ports := some [.pstr "80"] })],
    volumes := some [("named", none)],
    networks := some 1 }

def emptyDoc : ComposeDoc := {}

/-- Lifecycle environment: `docker compose up` exits non-zero after the
workspace was created and the branch checked out. -/
def envUpFail : SpinEnv := { dockerUp := some 1 }

/-- Lifecycle environment: SIGINT (signal 2) arrives at the agent-run
stage. -/
def envSigint : SpinEnv := { signal := some (.atAgent, 2) }

/-- Lifecycle environment: the agent subprocess fails with return code
7. -/
def envAgentFail : SpinEnv := { agent := some 7 }

/-! ## Helper lemmas -/

/-! ### Dict lemmas -/

theorem dkeys_cons {α : Type} (p : String × α) (rest : List (String × α)) :
    dkeys (p :: rest) = p.1 :: dkeys rest := rfl

theorem dany_eq_true_iff {α : Type} (m : List (String × α)) (k : String) :
    (m.any fun p => p.1 == k) = true ↔ k ∈ dkeys m := by
  simp [List.any_eq_true, dkeys, List.mem_map, beq_iff_eq]

theorem dkeys_replaceKey {α : Type} (m : List (String × α)) (k : String)
    (v : α) :
    dkeys (m.map fun p => if p.1 == k then (k, v) else p) = dkeys m := by
  induction m with
  | nil => rfl
  | cons p rest ih =>
    by_cases hp : p.1 = k
    · simp [dkeys, hp, ih]
      simpa [dkeys] using ih
    · simp only [List.map_cons, beq_false_of_ne hp, Bool.false_eq_true,
        if_false, dkeys_cons]
      simpa [dkeys] using ih

theorem dkeys_dinsert {α : Type} (m : List (String × α)) (k : String)
    (v : α) :
    dkeys (dinsert m k v) =
      if k ∈ dkeys m then dkeys m else dkeys m ++ [k] := by
  unfold dinsert
  by_cases h : k ∈ dkeys m
  · rw [if_pos ((dany_eq_true_iff m k).mpr h), if_pos h, dkeys_replaceKey]
  · rw [if_neg (fun hc => h ((dany_eq_true_iff m k).mp hc)), if_neg h]
    simp [dkeys]

theorem mem_dkeys_dinsert_self {α : Type} (m : List (String × α))
    (k : String) (v : α) : k ∈ dkeys (dinsert m k v) := by
  rw [dkeys_dinsert]
  split
  · assumption
  · simp

theorem mem_dkeys_dinsert_of_mem {α : Type} (m : List (String × α))
    (k k' : String) (v : α) (h : k' ∈ dkeys m) :
    k' ∈ dkeys (dinsert m k v) := by
  rw [dkeys_dinsert]
  split
  · exact h
  · simp [h]

theorem nodup_dkeys_dinsert {α : Type} (m : List (String × α)) (k : String)
    (v : α) (h : (dkeys m).Nodup) : (dkeys (dinsert m k v)).Nodup := by
  rw [dkeys_dinsert]
  split
  · exact h
  · next hk =>
    rw [List.nodup_append]
    refine ⟨h, List.nodup_singleton k, ?_⟩
    intro a ha hc
    simp at hc
    subst hc
    exact hk ha

theorem dinsert_of_not_mem {α : Type} (m : List (String × α)) (k : String)
    (v : α) (h : k ∉ dkeys m) : dinsert m k v = m ++ [(k, v)] := by
  unfold dinsert
  rw [if_neg]
  intro hc
  exact h ((dany_eq_true_iff m k).mp hc)

theorem mem_dkeys_dmergeInto_left {α : Type} (a b : List (String × α))
    (k : String) (h : k ∈ dkeys a) : k ∈ dkeys (dmergeInto a b) := by
  induction b generalizing a with
  | nil => exact h
  | cons p rest ih =>
    exact ih (dinsert a p.1 p.2) (mem_dkeys_dinsert_of_mem a p.1 k p.2 h)

theorem mem_dkeys_dmergeInto_right {α : Type} (a b : List (String × α))
    (k : String) (h : k ∈ dkeys b) : k ∈ dkeys (dmergeInto a b) := by
  induction b generalizing a with
  | nil => simp [dkeys] at h
  | cons p rest ih =>
    rw [dkeys_cons, List.mem_cons] at h
    rcases h with h | h
    · subst h
      exact mem_dkeys_dmergeInto_left _ rest _
        (mem_dkeys_dinsert_self a p.1 p.2)
    · exact ih (dinsert a p.1 p.2) h

theorem dmergeInto_eq_append {α : Type} (a b : List (String × α))
    (hd : (dkeys b).Nodup) (hdisj : ∀ k ∈ dkeys b, k ∉ dkeys a) :
    dmergeInto a b = a ++ b := by
  induction b generalizing a with
  | nil => simp [dmergeInto]
  | cons p rest ih =>
    rw [dkeys_cons] at hd hdisj
    have hp : p.1 ∉ dkeys a := hdisj p.1 (by simp)
    have hni : p.1 ∉ dkeys rest := (List.nodup_cons.mp hd).1
    show dmergeInto (dinsert a p.1 p.2) rest = a ++ p :: rest
    rw [dinsert_of_not_mem a p.1 p.2 hp,
      ih (a ++ [(p.1, p.2)]) (List.nodup_cons.mp hd).2 ?_]
    · simp
    · intro k hk
      rw [dkeys, List.map_append, List.mem_append]
      rintro (hc | hc)
      · exact hdisj k (by simp [hk]) hc
      · simp [dkeys] at hc
        subst hc
        exact hni hk

theorem nodup_dkeys_dmergeInto {α : Type} (a b : List (String × α))
    (h : (dkeys a).Nodup) : (dkeys (dmergeInto a b)).Nodup := by
  induction b generalizing a with
  | nil => exact h
  | cons p rest ih => exact ih _ (nodup_dkeys_dinsert a p.1 p.2 h)

theorem dlookup_replaceKey_ne {α : Type} (m : List (String × α))
    (k k' : String) (v : α) (h : k' ≠ k) :
    dlookup (m.map fun p => if p.1 == k then (k, v) else p) k' =
      dlookup m k' := by
  induction m with
  | nil => rfl
  | cons p rest ih =>
    by_cases hp : p.1 = k
    · have h1 : (k == k') = false := beq_false_of_ne (Ne.symm h)
      have h2 : (p.1 == k') = false := beq_false_of_ne (hp ▸ Ne.symm h)
      have hpk : (p.1 == k) = true := beq_iff_eq.mpr hp
      simp only [List.map_cons, hpk, if_true, dlookup, h1, h2,
        Bool.false_eq_true, if_false]
      exact ih
    · simp only [List.map_cons, beq_false_of_ne hp, Bool.false_eq_true,
        if_false, dlookup, ih]

theorem dlookup_append_single_ne {α : Type} (m : List (String × α))
    (k k' : String) (v : α) (h : k' ≠ k) :
    dlookup (m ++ [(k, v)]) k' = dlookup m k' := by
  induction m with
  | nil => simp [dlookup, beq_false_of_ne (Ne.symm h)]
  | cons p rest ih => simp [dlookup, ih]

theorem dlookup_dinsert_ne {α : Type} (m : List (String × α))
    (k k' : String) (v : α) (h : k' ≠ k) :
    dlookup (dinsert m k v) k' = dlookup m k' := by
  unfold dinsert
  split
  · exact dlookup_replaceKey_ne m k k' v h
  · exact dlookup_append_single_ne m k k' v h

theorem dlookup_dinsert_self {α : Type} (m : List (String × α))
    (k : String) (v : α) : dlookup (dinsert m k v) k = some v := by
  unfold dinsert
  split
  · next hany =>
    induction m with
    | nil => simp at hany
    | cons p rest ih =>
      by_cases hp : p.1 = k
      · simp [dlookup, hp]
      · have hb : (p.1 == k) = false := beq_false_of_ne hp
        have hrest : (rest.any fun p => p.1 == k) = true := by
          simpa [List.any_cons, hb] using hany
        simp only [List.map_cons, hb, Bool.false_eq_true, if_false,
          dlookup, ih hrest]
  · induction m with
    | nil => simp [dlookup]
    | cons p rest ih =>
      next hany =>
      have hb : (p.1 == k) = false := by
        by_contra hc
        exact hany (by simp [List.any_cons, hc])
      have hrest : ¬ (rest.any fun p => p.1 == k) = true := by
        intro hc
        exact hany (by simp [List.any_cons, hc])
      simp only [List.cons_append, dlookup, hb, Bool.false_eq_true,
        if_false]
      exact ih hrest

theorem dlookup_dmergeInto_not_mem {α : Type} (a b : List (String × α))
    (k : String) (h : k ∉ dkeys b) :
    dlookup (dmergeInto a b) k = dlookup a k := by
  induction b generalizing a with
  | nil => rfl
  | cons p rest ih =>
    rw [dkeys_cons, List.mem_cons] at h
    push_neg at h
    show dlookup (dmergeInto (dinsert a p.1 p.2) rest) k = dlookup a k
    rw [ih _ h.2, dlookup_dinsert_ne a p.1 k p.2 h.1]

theorem dlookup_dmergeInto_of_mem {α : Type} (a b : List (String × α))
    (k : String) (v : α) (hnd : (dkeys b).Nodup)
    (h : dlookup b k = some v) :
    dlookup (dmergeInto a b) k = some v := by
  induction b generalizing a with
  | nil => simp [dlookup] at h
  | cons p rest ih =>
    rw [dkeys_cons] at hnd
    show dlookup (dmergeInto (dinsert a p.1 p.2) rest) k = some v
    by_cases hp : p.1 = k
    · have hv : p.2 = v := by simpa [dlookup, hp] using h
      have hk : k ∉ dkeys rest := hp ▸ (List.nodup_cons.mp hnd).1
      rw [dlookup_dmergeInto_not_mem _ rest k hk, hp,
        dlookup_dinsert_self a k p.2, hv]
    · have hb : (p.1 == k) = false := beq_false_of_ne hp
      have h2 : dlookup rest k = some v := by simpa [dlookup, hb] using h
      exact ih _ (List.nodup_cons.mp hnd).2 h2

/-! ### String / split lemmas -/

theorem splitColon_ne_nil (l : List Char) : splitColon l ≠ [] := by
  induction l with
  | nil => simp [splitColon]
  | cons c rest ih =>
    unfold splitColon
    by_cases hc : c = ':'
    · simp [hc]
    · simp only [hc, if_false]
      rcases hsc : splitColon rest with - | ⟨h, t⟩ <;> simp

theorem colon_not_mem_splitColon_getLastD (l : List Char) :
    ':' ∉ (splitColon l).getLastD [] := by
  induction l with
  | nil => simp [splitColon]
  | cons c rest ih =>
    unfold splitColon
    by_cases hc : c = ':'
    · simp only [hc, if_true, List.getLastD_cons]
      exact ih
    · simp only [hc, if_false]
      rcases hsc : splitColon rest with - | ⟨h, t⟩
      · simp [List.getLastD]
        exact Ne.symm hc
      · rw [hsc] at ih
        rw [List.getLastD_cons] at ih ⊢
        rcases t with - | ⟨t0, ts⟩
        · have ih' : ':' ∉ h := ih
          show ':' ∉ c :: h
          rw [List.mem_cons]
          push_neg
          exact ⟨Ne.symm hc, ih'⟩
        · rw [List.getLastD_cons] at ih ⊢
          exact ih

theorem splitColon_no_colon (l : List Char) (h : ':' ∉ l) :
    splitColon l = [l] := by
  induction l with
  | nil => rfl
  | cons c rest ih =>
    rw [List.mem_cons] at h
    push_neg at h
    unfold splitColon
    rw [if_neg (Ne.symm h.1), ih h.2]

theorem two_le_length_splitColon_append (l c : List Char) :
    2 ≤ (splitColon (l ++ ':' :: c)).length := by
  induction l with
  | nil =>
    have h1 : splitColon c ≠ [] := splitColon_ne_nil c
    have h2 : 1 ≤ (splitColon c).length := List.length_pos.mpr h1
    simp only [List.nil_append]
    unfold splitColon
    rw [if_pos rfl]
    simpa using h2
  | cons x rest ih =>
    show 2 ≤ (splitColon (x :: (rest ++ ':' :: c))).length
    unfold splitColon
    by_cases hx : x = ':'
    · rw [if_pos hx]
      have h1 : splitColon (rest ++ ':' :: c) ≠ [] := splitColon_ne_nil _
      have h2 : 1 ≤ (splitColon (rest ++ ':' :: c)).length :=
        List.length_pos.mpr h1
      simpa using h2
    · rw [if_neg hx]
      rcases hsc : splitColon (rest ++ ':' :: c) with - | ⟨h, t⟩
      · exact absurd hsc (splitColon_ne_nil _)
      · rw [hsc] at ih
        simpa using ih

theorem getLastD_splitColon_append (l c : List Char) (h : ':' ∉ c) :
    (splitColon (l ++ ':' :: c)).getLastD [] = c := by
  induction l with
  | nil =>
    show (splitColon (':' :: c)).getLastD [] = c
    unfold splitColon
    rw [if_pos rfl, splitColon_no_colon c h, List.getLastD_cons,
      List.getLastD_cons]
    rfl
  | cons x rest ih =>
    show (splitColon (x :: (rest ++ ':' :: c))).getLastD [] = c
    unfold splitColon
    by_cases hx : x = ':'
    · rw [if_pos hx, List.getLastD_cons]
      exact ih
    · rw [if_neg hx]
      rcases hsc : splitColon (rest ++ ':' :: c) with - | ⟨hh, t⟩
      · exact absurd hsc (splitColon_ne_nil _)
      · have hlen := two_le_length_splitColon_append rest c
        rw [hsc] at hlen ih
        rw [List.getLastD_cons] at ih ⊢
        rcases t with - | ⟨t0, ts⟩
        · simp at hlen
        · rw [List.getLastD_cons] at ih ⊢
          exact ih

theorem digitChar_ne_colon (d : Nat) : digitChar d ≠ ':' := by
  unfold digitChar
  repeat' split
  all_goals decide

theorem colon_not_mem_natChars (fuel n : Nat) :
    ':' ∉ natChars fuel n := by
  induction fuel generalizing n with
  | zero => simp [natChars]
  | succ f ih =>
    unfold natChars
    split
    · simp only [List.mem_singleton]
      exact fun hc => digitChar_ne_colon n hc.symm
    · rw [List.mem_append]
      rintro (hc | hc)
      · exact ih _ hc
      · simp only [List.mem_singleton] at hc
        exact digitChar_ne_colon _ hc.symm

theorem colon_not_mem_pyStr (n : Nat) : ':' ∉ (pyStr n).data :=
  colon_not_mem_natChars (n + 1) n

theorem colon_not_mem_containerPort (p : PortEntry) :
    ':' ∉ (containerPort p).data := by
  cases p with
  | pstr s => exact colon_not_mem_splitColon_getLastD s.data
  | pnum n => exact colon_not_mem_pyStr n

theorem lastColonChunk_concat (x c : String) (h : ':' ∉ c.data) :
    lastColonChunk (x ++ ":" ++ c) = c := by
  unfold lastColonChunk
  have hd : (x ++ ":" ++ c).data = x.data ++ ':' :: c.data := by
    show (x.data ++ [':']) ++ c.data = x.data ++ ':' :: c.data
    rw [List.append_assoc]
    rfl
  rw [hd, getLastD_splitColon_append x.data c.data h]

theorem containerPort_specPortRewrite (name cp : String)
    (h : ':' ∉ cp.data) :
    containerPort (.pstr (specPortRewrite name cp)) = cp :=
  lastColonChunk_concat ("$\x7b" ++ name ++ ":-" ++ cp ++ "\x7d") cp h

/-! ### Characterisation of `make_multi_instance_safe` -/

theorem dmergeInto_append {α : Type} (a x y : List (String × α)) :
    dmergeInto a (x ++ y) = dmergeInto (dmergeInto a x) y := by
  simp [dmergeInto, List.foldl_append]

theorem portsLoop_eq (u : String) (total : Nat) (ps : List PortEntry)
    (i : Nat) (env : List (String × String)) :
    portsLoop u total ps i env =
      (specEntriesFrom u total ps i,
       dmergeInto env (specPairsFrom u total ps i)) := by
  induction ps generalizing i env with
  | nil => rfl
  | cons p rest ih =>
    show portsLoop u total (p :: rest) i env = _
    simp only [portsLoop, ih]
    rfl

theorem specEntriesFrom_length (u : String) (total : Nat)
    (ps : List PortEntry) (i : Nat) :
    (specEntriesFrom u total ps i).length = ps.length := by
  simp [specEntriesFrom, List.enumFrom_length]

theorem specRewrittenPorts_length (nm : String) (ps : List PortEntry) :
    (specRewrittenPorts nm ps).length = ps.length := by
  show (specEntriesFrom (pyUpper nm) ps.length ps 0).length = ps.length
  exact specEntriesFrom_length _ _ _ _

theorem msafeServices_eq (svcs : List (String × Service))
    (env : List (String × String)) :
    msafeServices svcs env =
      (svcs.map msafeRewriteService,
       dmergeInto env (specPortPairsList svcs)) := by
  induction svcs generalizing env with
  | nil => rfl
  | cons p rest ih =>
    rcases p with ⟨nm, svc⟩
    show msafeServices ((nm, svc) :: rest) env = _
    unfold msafeServices
    rcases hps : svc.ports with - | ps
    · simp only [hps]
      rw [ih env]
      refine Prod.ext ?_ ?_
      · simp only [List.map_cons]
        refine congrArg₂ List.cons ?_ rfl
        unfold msafeRewriteService
        simp [hps]
      · simp only [specPortPairsList, List.map_cons, hps,
          List.flatten_cons, List.nil_append]
    · simp only [hps]
      rw [portsLoop_eq (pyUpper nm) ps.length ps 0 env,
        ih (dmergeInto env (specPairsFrom (pyUpper nm) ps.length ps 0))]
      refine Prod.ext ?_ ?_
      · simp only [List.map_cons]
        refine congrArg₂ List.cons ?_ rfl
        unfold msafeRewriteService
        simp only [hps]
        rfl
      · simp only [specPortPairsList, List.map_cons, hps,
          List.flatten_cons]
        rw [dmergeInto_append]
        rfl

theorem make_multi_instance_safe_eq (d : ComposeDoc) :
    make_multi_instance_safe d =
      ({ d with
          services := d.services.map msafeRewriteService,
          networks := none },
       dmergeInto [] (specPortPairs d)) := by
  unfold make_multi_instance_safe
  rw [msafeServices_eq]
  rfl

theorem containerPort_specEntriesFrom (u : String) (total : Nat)
    (i : Nat) (p : PortEntry) :
    containerPort (PortEntry.pstr
      (specPortRewrite
        (if total == 1 then u ++ "_PORT" else u ++ "_PORT_" ++ pyStr i)
        (containerPort p))) = containerPort p :=
  containerPort_specPortRewrite _ _ (colon_not_mem_containerPort p)

theorem specEntriesFrom_idem (u : String) (total : Nat)
    (ps : List PortEntry) (i : Nat) :
    specEntriesFrom u total (specEntriesFrom u total ps i) i =
      specEntriesFrom u total ps i := by
  induction ps generalizing i with
  | nil => rfl
  | cons p rest ih =>
    show specEntriesFrom u total
      (_ :: specEntriesFrom u total rest (i + 1)) i = _
    unfold specEntriesFrom
    simp only [List.enumFrom, List.map_cons]
    refine congrArg₂ List.cons ?_ ?_
    · rw [containerPort_specEntriesFrom]
    · exact ih (i + 1)

theorem specPairsFrom_of_entries (u : String) (total : Nat)
    (ps : List PortEntry) (i : Nat) :
    specPairsFrom u total (specEntriesFrom u total ps i) i =
      specPairsFrom u total ps i := by
  induction ps generalizing i with
  | nil => rfl
  | cons p rest ih =>
    show specPairsFrom u total
      (_ :: specEntriesFrom u total rest (i + 1)) i = _
    unfold specPairsFrom
    simp only [List.enumFrom, List.map_cons]
    refine congrArg₂ List.cons ?_ ?_
    · rw [containerPort_specEntriesFrom]
    · exact ih (i + 1)

theorem specRewrittenPorts_idem (nm : String) (ps : List PortEntry) :
    specRewrittenPorts nm (specRewrittenPorts nm ps) =
      specRewrittenPorts nm ps := by
  show specEntriesFrom (pyUpper nm) (specRewrittenPorts nm ps).length
    (specEntriesFrom (pyUpper nm) ps.length ps 0) 0 = _
  rw [specRewrittenPorts_length]
  exact specEntriesFrom_idem _ _ _ _

theorem msafeRewriteService_idem (p : String × Service) :
    msafeRewriteService (msafeRewriteService p) = msafeRewriteService p := by
  rcases p with ⟨nm, svc⟩
  unfold msafeRewriteService
  rcases hps : svc.ports with - | ps
  · simp [hps]
  · simp [hps, specRewrittenPorts_idem]

theorem specServicePortPairs_of_rewritten (nm : String)
    (ps : List PortEntry) :
    specServicePortPairs nm (specRewrittenPorts nm ps) =
      specServicePortPairs nm ps := by
  show specPairsFrom (pyUpper nm) (specRewrittenPorts nm ps).length
    (specEntriesFrom (pyUpper nm) ps.length ps 0) 0 = _
  rw [specRewrittenPorts_length]
  exact specPairsFrom_of_entries _ _ _ _

theorem specPortPairsList_map_rewrite (svcs : List (String × Service)) :
    specPortPairsList (svcs.map msafeRewriteService) =
      specPortPairsList svcs := by
  induction svcs with
  | nil => rfl
  | cons p rest ih =>
    rcases p with ⟨nm, svc⟩
    simp only [List.map_cons, specPortPairsList, List.flatten_cons]
    refine congrArg₂ (· ++ ·) ?_ ?_
    · rcases hps : svc.ports with - | ps
      · simp [msafeRewriteService, hps]
      · simp only [msafeRewriteService, hps, Option.map_some]
        exact specServicePortPairs_of_rewritten nm ps
    · simpa [specPortPairsList] using ih

/-! ### Lifecycle lemmas -/

theorem cleanup_handler_cases (env : SpinEnv) (sg : Option Nat)
    (st : SpinSt) :
    cleanup_handler env sg st =
      if st.wsExists && !env.rmtreeOk then
        { exitCode := 1,
          st := if st.dockerStarted && st.safeCompose then
            { st with downAttempted := true } else st,
          handlerInvoked := true, handlerCompleted := false,
          signalDelivered := sg }
      else
        { exitCode := match sg with | none => 0 | some n => 128 + n,
          st := { (if st.dockerStarted && st.safeCompose then
            { st with downAttempted := true } else st) with
            wsExists := false },
          handlerInvoked := true, handlerCompleted := true,
          signalDelivered := sg } := by
  rcases st with ⟨ws, sc, ds, da⟩
  rcases ws <;> rcases sc <;> rcases ds <;> rcases hr : env.rmtreeOk <;>
    simp [cleanup_handler, cleanup_docker, hr]

theorem cleanup_handler_invoked (env : SpinEnv) (sg : Option Nat)
    (st : SpinSt) : (cleanup_handler env sg st).handlerInvoked = true := by
  rw [cleanup_handler_cases]
  split <;> rfl

theorem cleanup_handler_delivered (env : SpinEnv) (sg : Option Nat)
    (st : SpinSt) : (cleanup_handler env sg st).signalDelivered = sg := by
  rw [cleanup_handler_cases]
  split <;> rfl

theorem cleanup_handler_completed (env : SpinEnv) (sg : Option Nat)
    (st : SpinSt) (h : env.rmtreeOk = true) :
    (cleanup_handler env sg st).handlerCompleted = true ∧
      (cleanup_handler env sg st).st.wsExists = false := by
  simp [cleanup_handler_cases, h]

theorem cleanup_handler_exit (env : SpinEnv) (sg : Option Nat) (st : SpinSt)
    (h : (cleanup_handler env sg st).handlerCompleted = true) :
    (cleanup_handler env sg st).exitCode =
      match sg with | none => 0 | some n => 128 + n := by
  rw [cleanup_handler_cases] at h ⊢
  rcases hc : (st.wsExists && !env.rmtreeOk) with - | -
  · rw [if_neg (by simp [hc])]
    cases sg <;> rfl
  · rw [if_pos (by simp [hc])] at h
    simp at h

theorem cleanup_handler_down (env : SpinEnv) (sg : Option Nat) (st : SpinSt)
    (h : st.downAttempted = false) :
    (cleanup_handler env sg st).st.downAttempted =
      (st.dockerStarted && st.safeCompose) := by
  rcases st with ⟨ws, sc, ds, da⟩
  simp only at h
  subst h
  rcases hr : env.rmtreeOk <;> rcases ws <;> rcases sc <;> rcases ds <;>
    simp [cleanup_handler, cleanup_docker, hr]

theorem shape_handler (env : SpinEnv) (sg : Option Nat) (st : SpinSt)
    (h1 : st.downAttempted = false)
    (h2 : st.dockerStarted = true → env.dockerUp = none) :
    ShapeP env (cleanup_handler env sg st) :=
  ⟨sg, st, rfl, h1, h2⟩

theorem shape_atStage (env : SpinEnv) (s : Stage) (st : SpinSt)
    (k : SpinSt → SpinFinal) (hk : ShapeP env (k st))
    (hs : ∀ n, ShapeP env (cleanup_handler env (some n) st)) :
    ShapeP env (atStage env s st k) := by
  unfold atStage
  rcases hsig : env.signal with - | ⟨s', n⟩ <;> (try simp only [hsig])
  · exact hk
  · by_cases hss : s = s'
    · rw [if_pos hss]
      exact hs n
    · rw [if_neg hss]
      exact hk

theorem runTry_shape (env : SpinEnv) : ShapeP env (runTry env) := by
  unfold runTry
  repeat'
    first
    | apply shape_atStage
    | split
    | (intro n)
    | (apply shape_handler)
    | (simp only [])
  all_goals
    first
    | rfl
    | simp_all [Option.not_isSome_iff_eq_none]

/-! ### `convert-to-named` lemmas -/

theorem convLoop_named_mono (nm : String) (total : Nat)
    (vols : List VolEntry) :
    ∀ bc env named k, k ∈ dkeys named →
      k ∈ dkeys (convLoop nm total vols bc env named).2.2 := by
  induction vols with
  | nil => intro bc env named k h; exact h
  | cons v rest ih =>
    intro bc env named k h
    rcases hb : isBindMount v with - | -
    · cases v with
      | vstr s =>
        simp only [convLoop, hb, Bool.false_eq_true, if_false]
        exact ih _ _ _ k h
      | vother i =>
        simp only [convLoop, hb, Bool.false_eq_true, if_false]
        exact ih _ _ _ k h
    · cases v with
      | vstr s =>
        simp only [convLoop, hb, if_true]
        exact ih _ _ _ k (mem_dkeys_dinsert_of_mem _ _ _ _ h)
      | vother i => simp [isBindMount] at hb

theorem convLoop_named_mem (nm : String) (total : Nat)
    (vols : List VolEntry) :
    ∀ bc env named s, VolEntry.vstr s ∈ vols →
      isBindMount (VolEntry.vstr s) = true →
      (nm ++ "-" ++ volHash nm s) ∈
        dkeys (convLoop nm total vols bc env named).2.2 := by
  induction vols with
  | nil => intro bc env named s hmem _; simp at hmem
  | cons v rest ih =>
    intro bc env named s hmem hbind
    rcases List.mem_cons.mp hmem with heq | hmem'
    · subst heq
      simp only [convLoop, hbind, if_true]
      exact convLoop_named_mono nm total rest _ _ _ _
        (mem_dkeys_dinsert_self _ _ _)
    · rcases hb : isBindMount v with - | -
      · cases v with
        | vstr s0 =>
          simp only [convLoop, hb, Bool.false_eq_true, if_false]
          exact ih _ _ _ s hmem' hbind
        | vother i =>
          simp only [convLoop, hb, Bool.false_eq_true, if_false]
          exact ih _ _ _ s hmem' hbind
      · cases v with
        | vstr s0 =>
          simp only [convLoop, hb, if_true]
          exact ih _ _ _ s hmem' hbind
        | vother i => simp [isBindMount] at hb

theorem convServices_named_mono (svcs : List (String × Service)) :
    ∀ env named k, k ∈ dkeys named →
      k ∈ dkeys (convServices svcs env named).2.2 := by
  induction svcs with
  | nil => intro env named k h; exact h
  | cons p rest ih =>
    intro env named k h
    rcases p with ⟨nm, svc⟩
    rcases hv : svc.volumes with - | vols
    · simp only [convServices, hv]
      exact ih _ _ k h
    · simp only [convServices, hv]
      exact ih _ _ k (convLoop_named_mono _ _ _ _ _ _ k h)

theorem convServices_named_mem (svcs : List (String × Service)) :
    ∀ env named nm svc vols s, (nm, svc) ∈ svcs →
      svc.volumes = some vols → VolEntry.vstr s ∈ vols →
      isBindMount (VolEntry.vstr s) = true →
      (nm ++ "-" ++ volHash nm s) ∈
        dkeys (convServices svcs env named).2.2 := by
  induction svcs with
  | nil => intro env named nm svc vols s hmem; simp at hmem
  | cons p rest ih =>
    intro env named nm svc vols s hmem hv hm hb
    rcases List.mem_cons.mp hmem with heq | hmem'
    · subst heq
      simp only [convServices, hv]
      exact convServices_named_mono rest _ _ _
        (convLoop_named_mem nm _ vols 0 env named s hm hb)
    · rcases p with ⟨nm0, svc0⟩
      rcases hv0 : svc0.volumes with - | vols0
      · simp only [convServices, hv0]
        exact ih _ _ nm svc vols s hmem' hv hm hb
      · simp only [convServices, hv0]
        exact ih _ _ nm svc vols s hmem' hv hm hb

/-- The `convert-to-named` branch of `transform_volumes`, unfolded. -/
theorem transform_volumes_conv (d : ComposeDoc) :
    transform_volumes d "convert-to-named" =
      .ok ((if (convServices d.services [] []).2.2.isEmpty then
              { d with services := (convServices d.services [] []).1 }
            else
              { d with
                services := (convServices d.services [] []).1,
                volumes := some (dmergeInto (d.volumes.getD [])
                  (convServices d.services [] []).2.2) }),
           (convServices d.services [] []).2.1) := rfl

theorem transform_volumes_keep (d : ComposeDoc) :
    transform_volumes d "keep" = .ok (d, []) := rfl

theorem transform_volumes_invalid (d : ComposeDoc) (mode : String)
    (h1 : mode ≠ "keep") (h2 : mode ≠ "remove")
    (h3 : mode ≠ "convert-to-named") :
    transform_volumes d mode =
      .error (.valueError ("Invalid volumes option: " ++ mode)) := by
  unfold transform_volumes
  rw [if_neg (by simpa [beq_iff_eq] using h2),
    if_neg (by simpa [beq_iff_eq] using h3),
    if_neg (by simpa [beq_iff_eq] using h1)]

/-! ### Idempotence and env-key lemmas -/

theorem make_multi_instance_safe_idem (d : ComposeDoc) :
    make_multi_instance_safe (make_multi_instance_safe d).1 =
      make_multi_instance_safe d := by
  have hf : msafeRewriteService ∘ msafeRewriteService = msafeRewriteService :=
    funext msafeRewriteService_idem
  rw [make_multi_instance_safe_eq d, make_multi_instance_safe_eq]
  refine Prod.ext ?_ ?_
  · show ({ d with
      services := (d.services.map msafeRewriteService).map msafeRewriteService,
      networks := none } : ComposeDoc) = _
    rw [List.map_map, hf]
  · show dmergeInto []
      (specPortPairsList (d.services.map msafeRewriteService)) =
      dmergeInto [] (specPortPairs d)
    rw [specPortPairsList_map_rewrite]
    rfl

theorem nodup_dkeys_port_env (d : ComposeDoc) :
    (dkeys (make_multi_instance_safe d).2).Nodup := by
  rw [make_multi_instance_safe_eq]
  exact nodup_dkeys_dmergeInto [] _ (by simp [dkeys])

/-! ## Claims -/

/-- C1: for every service with a `ports` list, `make_multi_instance_safe`
rewrites each port entry to `"${ENV_VAR_NAME:-container_port}:container_port"`,
where `container_port` is the substring after the last `:` of the entry
(or the whole value if the entry has no `:`), `ENV_VAR_NAME` is
`"{SERVICE_NAME_UPPER}_PORT"` when the service has exactly one port entry
and `"{SERVICE_NAME_UPPER}_PORT_{i}"` (0-based original index) when it has
more than one, and the returned EnvVarSet maps each `ENV_VAR_NAME` to its
`container_port` in the original entry order (stated for documents whose
generated names are pairwise distinct, as the naming scheme presupposes). -/
theorem claim_C1 (d : ComposeDoc)
    (hnd : (dkeys (specPortPairs d)).Nodup) :
    (make_multi_instance_safe d).1.services.map (fun p => (p.1, p.2.ports)) =
      d.services.map
        (fun p => (p.1, p.2.ports.map (specRewrittenPorts p.1))) ∧
    (make_multi_instance_safe d).2 = specPortPairs d := by
  rw [make_multi_instance_safe_eq]
  constructor
  · show (d.services.map msafeRewriteService).map
      (fun p => (p.1, p.2.ports)) = _
    rw [List.map_map]
    rfl
  · show dmergeInto [] (specPortPairs d) = specPortPairs d
    rw [dmergeInto_eq_append [] _ hnd (by intro k _; simp [dkeys])]
    simp

/-- C1 witness: the spec's multi-port example, service `api` with
`ports: ["8080:80", "8443:443"]`, yields `API_PORT_0=80`, `API_PORT_1=443`
in that order. -/
theorem claim_C1_witness :
    (dkeys (specPortPairs apiDoc)).Nodup ∧
    (make_multi_instance_safe apiDoc).2 =
      [("API_PORT_0", "80"), ("API_PORT_1", "443")] := by
  refine ⟨by decide, ?_⟩
  rw [(claim_C1 apiDoc (by decide)).2]
  decide

/-- C3 (counterexample): the claim that `make_multi_instance_safe` is not
idempotent — that for some document the second application's ports differ
from the first application's — is false: the rewritten ports of any
document are a fixed point (the container port is taken after the
**last** `:`, so `"${WEB_PORT:-80}:80"` maps to itself). -/
theorem claim_C3_counterexample :
    ¬ ∃ d : ComposeDoc,
      (make_multi_instance_safe
          (make_multi_instance_safe d).1).1.services.map
            (fun p => (p.1, p.2.ports)) ≠
        (make_multi_instance_safe d).1.services.map
          (fun p => (p.1, p.2.ports)) := by
  rintro ⟨d, hne⟩
  exact hne (by rw [make_multi_instance_safe_idem])

/-- C3 (amended): applying `make_multi_instance_safe` to its own output is
idempotent — the second application returns the first application's
document (and env vars) unchanged; a single application to service `web`
with `ports: ["8080:80"]` yields `ports: ["${WEB_PORT:-80}:80"]` and
env vars `{"WEB_PORT": "80"}`. -/
theorem claim_C3_amended :
    (∀ d : ComposeDoc,
      make_multi_instance_safe (make_multi_instance_safe d).1 =
        make_multi_instance_safe d) ∧
    make_multi_instance_safe webDoc =
      ({ services := [("web",
           { ports := some [.pstr "$\x7bWEB_PORT:-80\x7d:80"],
             volumes := none, container_name := none })],
         volumes := none, networks := none },
       [("WEB_PORT", "80")]) :=
  ⟨make_multi_instance_safe_idem, by decide⟩

/-- C4: the Compose Safety Writer CLI exits 1 on zero glob matches, on
multiple matches and on a missing file, but it can never exit 0: on the
success path the call `safeify_compose(input_path, args.output_path,
args.volumes)` evaluates `args.output_path`, an attribute the parser
never sets (its destination is `output`), so an `AttributeError`
propagates and the interpreter exits 1. -/
theorem claim_C4 :
    cli ["docker-compose.yml"] (fun _ => true) webDoc "*compose.*ml"
        "keep" "docker-compose.safe.yml" =
      .uncaught (.attributeError "output_path") ∧
    cliExitCode (cli ["docker-compose.yml"] (fun _ => true) webDoc
      "*compose.*ml" "keep" "docker-compose.safe.yml") = 1 ∧
    cli [] (fun _ => true) webDoc "*compose.*ml" "keep" "o" = .exited 1 ∧
    cli ["a.yml", "b.yml"] (fun _ => true) webDoc "*compose.*ml" "keep" "o" =
      .exited 1 ∧
    cli ["docker-compose.yml"] (fun _ => false) webDoc "*compose.*ml"
      "keep" "o" = .exited 1 := by
  decide

/-- C5: `transform_volumes` in mode `convert-to-named` is deterministic
(equal inputs give equal outputs), and for every bind-mount volume spec
the default volume name
`"{service_name}-{first 8 hex chars of sha256(service_name + \":\" + spec)}"`
is registered under the document's top-level `volumes` mapping. -/
theorem claim_C5 (d₁ d₂ : ComposeDoc) (heq : d₁ = d₂) (nm : String)
    (svc : Service) (vols : List VolEntry) (s : String)
    (hsvc : (nm, svc) ∈ d₁.services) (hv : svc.volumes = some vols)
    (hm : VolEntry.vstr s ∈ vols)
    (hb : isBindMount (VolEntry.vstr s) = true) :
    transform_volumes d₁ "convert-to-named" =
      transform_volumes d₂ "convert-to-named" ∧
    (nm ++ "-" ++ volHash nm s) ∈ topNamesAfterConv d₁ := by
  subst heq
  refine ⟨rfl, ?_⟩
  have hkey : (nm ++ "-" ++ volHash nm s) ∈
      dkeys (convServices d₁.services [] []).2.2 :=
    convServices_named_mem d₁.services [] [] nm svc vols s hsvc hv hm hb
  rcases hemp : (convServices d₁.services [] []).2.2.isEmpty with - | -
  · have hok : transform_volumes d₁ "convert-to-named" =
        .ok ({ d₁ with
                services := (convServices d₁.services [] []).1,
                volumes := some (dmergeInto (d₁.volumes.getD [])
                  (convServices d₁.services [] []).2.2) },
             (convServices d₁.services [] []).2.1) := by
      rw [transform_volumes_conv]
      simp only [hemp, Bool.false_eq_true, if_false]
    unfold topNamesAfterConv
    rw [hok]
    exact mem_dkeys_dmergeInto_right _ _ _ hkey
  · rcases hl : (convServices d₁.services [] []).2.2 with - | ⟨p, t⟩
    · rw [hl] at hkey
      simp [dkeys] at hkey
    · rw [hl] at hemp
      simp at hemp

/-- C5 witness: the spec's scenario — service `db` with bind mount
`./data:/var/lib/data` — registers `db-f1af289d` (the sha256-derived
name) under the top-level `volumes` mapping. -/
theorem claim_C5_witness :
    ("db" ++ "-" ++ volHash "db" "./data:/var/lib/data") ∈
      topNamesAfterConv dbDoc ∧
    "db" ++ "-" ++ volHash "db" "./data:/var/lib/data" = "db-f1af289d" := by
  constructor
  · exact (claim_C5 dbDoc dbDoc rfl "db"
      { volumes := some [.vstr "./data:/var/lib/data"] }
      [.vstr "./data:/var/lib/data"] "./data:/var/lib/data"
      (by decide) rfl (by decide) (by decide)).2
  · decide

/-- C6: `transform_volumes` in mode `remove` returns a document with no
`volumes` key anywhere — neither in any service nor at the top level —
together with an empty EnvVarSet. -/
theorem claim_C6 (d : ComposeDoc) :
    ∃ d', transform_volumes d "remove" = .ok (d', []) ∧
      d'.volumes = none ∧ ∀ p ∈ d'.services, p.2.volumes = none := by
  refine ⟨_, rfl, rfl, ?_⟩
  intro p hp
  obtain ⟨q, -, rfl⟩ := List.mem_map.mp hp
  rfl

/-- C6 witness: a document with service-level and top-level volumes is
stripped of both. -/
theorem claim_C6_witness :
    (∃ d', transform_volumes volDoc "remove" = .ok (d', []) ∧
      d'.volumes = none ∧ ∀ p ∈ d'.services, p.2.volumes = none) ∧
    transform_volumes volDoc "remove" =
      .ok ({ services := [("db", {}),
                          ("web", { ports := some [.pstr "80"] })],
             volumes := none, networks := some 1 }, []) :=
  ⟨claim_C6 volDoc, by decide⟩

/-- C7 (counterexample): on an unrecognized mode, `transform_volumes`
raises `ValueError`, not the spec's `ConfigError` (no such class exists
in the source). -/
theorem claim_C7_counterexample :
    transform_volumes emptyDoc "bogus" =
      .error (.valueError "Invalid volumes option: bogus") ∧
    ∀ m, transform_volumes emptyDoc "bogus" ≠
      .error (.configError m) := by
  refine ⟨by decide, ?_⟩
  intro m h
  rw [show transform_volumes emptyDoc "bogus" =
    Except.error (PyErr.valueError "Invalid volumes option: bogus")
    from by decide] at h
  simp at h

/-- C7 (amended): `transform_volumes` fails — with `ValueError`, not
`ConfigError` — exactly when the mode is none of `keep`, `remove`,
`convert-to-named`; recognized modes never fail, and `keep` returns the
document unchanged with an empty EnvVarSet. -/
theorem claim_C7_amended (d : ComposeDoc) (mode : String) :
    (mode = "keep" → transform_volumes d mode = .ok (d, [])) ∧
    ((∃ e, transform_volumes d mode = .error e) ↔
      (mode ≠ "keep" ∧ mode ≠ "remove" ∧ mode ≠ "convert-to-named")) ∧
    (∀ e, transform_volumes d mode = .error e →
      e = .valueError ("Invalid volumes option: " ++ mode)) := by
  by_cases h1 : mode = "keep"
  · subst h1
    refine ⟨fun _ => transform_volumes_keep d, ⟨?_, ?_⟩, ?_⟩
    · rintro ⟨e, he⟩
      rw [transform_volumes_keep] at he
      exact Except.noConfusion he
    · rintro ⟨hk, -, -⟩
      exact absurd rfl hk
    · intro e he
      rw [transform_volumes_keep] at he
      exact Except.noConfusion he
  · by_cases h2 : mode = "remove"
    · subst h2
      obtain ⟨r, hr⟩ : ∃ r, transform_volumes d "remove" = .ok r :=
        ⟨_, rfl⟩
      refine ⟨fun hk => absurd hk (by decide), ⟨?_, ?_⟩, ?_⟩
      · rintro ⟨e, he⟩
        rw [hr] at he
        exact Except.noConfusion he
      · rintro ⟨-, hrm, -⟩
        exact absurd rfl hrm
      · intro e he
        rw [hr] at he
        exact Except.noConfusion he
    · by_cases h3 : mode = "convert-to-named"
      · subst h3
        obtain ⟨r, hr⟩ :
            ∃ r, transform_volumes d "convert-to-named" = .ok r :=
          ⟨_, transform_volumes_conv d⟩
        refine ⟨fun hk => absurd hk (by decide), ⟨?_, ?_⟩, ?_⟩
        · rintro ⟨e, he⟩
          rw [hr] at he
          exact Except.noConfusion he
        · rintro ⟨-, -, hcn⟩
          exact absurd rfl hcn
        · intro e he
          rw [hr] at he
          exact Except.noConfusion he
      · have herr := transform_volumes_invalid d mode h1 h2 h3
        refine ⟨fun hk => absurd hk h1,
          ⟨fun _ => ⟨h1, h2, h3⟩, fun _ => ⟨_, herr⟩⟩, ?_⟩
        intro e he
        rw [herr] at he
        exact (Except.error.inj he).symm

/-- C7 witness: at a concrete document, `keep` succeeds unchanged and the
unrecognized mode `bogus` fails. -/
theorem claim_C7_witness :
    transform_volumes emptyDoc "keep" = .ok (emptyDoc, []) ∧
    (∃ e, transform_volumes emptyDoc "bogus" = .error e) := by
  constructor
  · exact (claim_C7_amended emptyDoc "keep").1 rfl
  · exact (claim_C7_amended emptyDoc "bogus").2.1.mpr
      ⟨by decide, by decide, by decide⟩

/-- C9: when `safeify_compose` merges the EnvVarSets of
`transform_volumes` and `make_multi_instance_safe`, every key of the port
set maps to the port variable's value in the merged set (ports win on any
key collision, being merged second). -/
theorem claim_C9 (d : ComposeDoc) (mode : String) (d₁ : ComposeDoc)
    (volEnv : List (String × String)) (k v : String)
    (ht : transform_volumes d mode = .ok (d₁, volEnv))
    (hk : dlookup (make_multi_instance_safe d₁).2 k = some v) :
    ∃ r, safeify_compose d mode = .ok r ∧ dlookup r.2 k = some v := by
  refine ⟨((make_multi_instance_safe d₁).1,
    dmergeInto volEnv (make_multi_instance_safe d₁).2), ?_, ?_⟩
  · unfold safeify_compose
    rw [ht]
  · exact dlookup_dmergeInto_of_mem _ _ _ _ (nodup_dkeys_port_env d₁) hk

/-- C9 witness: for `web` in mode `keep`, the merged set holds
`WEB_PORT=80`. -/
theorem claim_C9_witness :
    ∃ r, safeify_compose webDoc "keep" = .ok r ∧
      dlookup r.2 "WEB_PORT" = some "80" :=
  claim_C9 webDoc "keep" webDoc [] "WEB_PORT" "80" (by decide) (by decide)

/-- C2 (counterexample): after a `docker compose up` that exits non-zero
following workspace creation, the workspace directory is removed — but no
compose `down` is attempted, because `docker_started` is still `False`
(`setup_docker` raises before returning `True`), contradicting the
claim's "a compose down was attempted". -/
theorem claim_C2_counterexample :
    (spinoff_main envUpFail).st.wsExists = false ∧
    (spinoff_main envUpFail).handlerInvoked = true ∧
    (spinoff_main envUpFail).st.downAttempted = false := by
  decide

/-- C2 (amended): the lifecycle manager always executes teardown (on
normal completion, on any propagated exception, and on SIGINT/SIGTERM);
the `down -v` result is swallowed (the final state does not depend on it);
when directory removal succeeds the workspace no longer exists; and after
a non-zero Docker bring-up the workspace directory no longer exists but
no compose down is attempted, since `docker_started` is only set after a
fully successful `setup_docker`. -/
theorem claim_C2_amended (env : SpinEnv) (hb : env.baseBranchOk = true) :
    (spinoff_main env).handlerInvoked = true ∧
    (env.rmtreeOk = true → (spinoff_main env).st.wsExists = false) ∧
    (∀ rc, spinoff_main { env with downRc := rc } = spinoff_main env) ∧
    (∀ rc, env.dockerUp = some rc → env.rmtreeOk = true →
      (spinoff_main env).st.wsExists = false ∧
      (spinoff_main env).st.downAttempted = false) := by
  have hmain : spinoff_main env = runTry env := by
    simp [spinoff_main, hb]
  obtain ⟨sg, st, heq, hda, hds⟩ := runTry_shape env
  refine ⟨?_, ?_, fun rc => rfl, ?_⟩
  · rw [hmain, heq]
    exact cleanup_handler_invoked env sg st
  · intro hr
    rw [hmain, heq]
    exact (cleanup_handler_completed env sg st hr).2
  · intro rc hup hr
    have hdsf : st.dockerStarted = false := by
      rcases hq : st.dockerStarted with - | -
      · rfl
      · rw [hds hq] at hup
        exact Option.noConfusion hup
    refine ⟨?_, ?_⟩
    · rw [hmain, heq]
      exact (cleanup_handler_completed env sg st hr).2
    · rw [hmain, heq, cleanup_handler_down env sg st hda, hdsf]
      rfl

/-- C2 witness: the amended claim applied to the Docker-up-failure
environment. -/
theorem claim_C2_amended_witness :
    envUpFail.baseBranchOk = true ∧
    ((spinoff_main envUpFail).handlerInvoked = true ∧
     (envUpFail.rmtreeOk = true →
       (spinoff_main envUpFail).st.wsExists = false) ∧
     (∀ rc, spinoff_main { envUpFail with downRc := rc } =
       spinoff_main envUpFail) ∧
     (∀ rc, envUpFail.dockerUp = some rc → envUpFail.rmtreeOk = true →
       (spinoff_main envUpFail).st.wsExists = false ∧
       (spinoff_main envUpFail).st.downAttempted = false)) :=
  ⟨by decide, claim_C2_amended envUpFail (by decide)⟩

/-- C8: a SIGINT/SIGTERM delivered at any lifecycle checkpoint makes the
process exit with status `128 + signum` (130 for SIGINT) after the
teardown path has run: the handler is invoked and the workspace directory
no longer exists. -/
theorem claim_C8 (env : SpinEnv) (n : Nat) (hr : env.rmtreeOk = true)
    (hsig : (spinoff_main env).signalDelivered = some n) :
    (spinoff_main env).exitCode = 128 + n ∧
    (spinoff_main env).st.wsExists = false ∧
    (spinoff_main env).handlerInvoked = true := by
  rcases hb : env.baseBranchOk with - | -
  · have hne : spinoff_main env =
        { exitCode := 1, st := {}, handlerInvoked := false,
          handlerCompleted := false, signalDelivered := none } := by
      simp [spinoff_main, hb]
    rw [hne] at hsig
    exact Option.noConfusion hsig
  · have hmain : spinoff_main env = runTry env := by
      simp [spinoff_main, hb]
    obtain ⟨sg, st, heq, -, -⟩ := runTry_shape env
    rw [hmain, heq] at hsig ⊢
    rw [cleanup_handler_delivered env sg st] at hsig
    subst hsig
    have hcomp := cleanup_handler_completed env (some n) st hr
    refine ⟨?_, hcomp.2, cleanup_handler_invoked env _ st⟩
    exact cleanup_handler_exit env (some n) st hcomp.1

/-- C8 witness: SIGINT (signal 2) at the agent-run stage exits with 130
and the workspace directory is gone. -/
theorem claim_C8_witness :
    envSigint.rmtreeOk = true ∧
    (spinoff_main envSigint).signalDelivered = some 2 ∧
    (spinoff_main envSigint).exitCode = 128 + 2 ∧
    (spinoff_main envSigint).st.wsExists = false := by
  have h := claim_C8 envSigint 2 (by decide) (by decide)
  exact ⟨by decide, by decide, h.1, h.2.1⟩

/-- C10: on every non-signal termination path in which teardown runs to
completion — including paths reached after a failing git, Docker or agent
subprocess — the process exits with status 0, because `cleanup_handler`
ends in `sys.exit(0)` when invoked without a signal number; the
`sys.exit(e.returncode)` and `sys.exit(1)` statements after the
`cleanup_handler()` calls are unreachable. -/
theorem claim_C10 (env : SpinEnv)
    (hns : (spinoff_main env).signalDelivered = none)
    (hc : (spinoff_main env).handlerCompleted = true) :
    (spinoff_main env).exitCode = 0 := by
  rcases hb : env.baseBranchOk with - | -
  · have hne : spinoff_main env =
        { exitCode := 1, st := {}, handlerInvoked := false,
          handlerCompleted := false, signalDelivered := none } := by
      simp [spinoff_main, hb]
    rw [hne] at hc
    exact absurd hc (by simp)
  · have hmain : spinoff_main env = runTry env := by
      simp [spinoff_main, hb]
    obtain ⟨sg, st, heq, -, -⟩ := runTry_shape env
    rw [hmain, heq] at hns hc ⊢
    rw [cleanup_handler_delivered env sg st] at hns
    subst hns
    exact cleanup_handler_exit env none st hc

/-- C10 witness: the agent subprocess fails with return code 7, yet the
process exits 0 (not 7, not 1). -/
theorem claim_C10_witness :
    (spinoff_main envAgentFail).signalDelivered = none ∧
    (spinoff_main envAgentFail).handlerCompleted = true ∧
    (spinoff_main envAgentFail).exitCode = 0 :=
  ⟨by decide, by decide, claim_C10 envAgentFail (by decide) (by decide)⟩

end Dotclaude
